import Mathlib

/-!
# Verification of the ShellProcess command/response layer

This file gives a shallow embedding of `src/shell_process.py` and settles
the frozen claims about it.  The embedding follows the source line by line:

* Python string primitives (`str.rstrip`, `str.split`, `str.startswith`,
  `int(...)`) are modelled as executable functions on `String` / `List Char`.
* The mutable `ShellProcess` object becomes an explicit state record
  `ShellProcessState`; each method becomes a pure function from a state
  (plus an environment describing what the operating system delivers) to a
  result and a new state.
* Fallible code (Python `raise`) returns `Except ShellError _` or an
  explicit `ExecBehavior.raises` outcome; an unbounded `while True:` loop
  whose driving environment runs out of events is `ExecBehavior.diverges`
  (the real loop would stay blocked in `select`).
* `select.select` is modelled by readiness sets supplied by the
  environment: the returned ready list is the input candidate list filtered
  by the ready set, which matches CPython's behaviour of reporting ready
  descriptors in input order.  An empty ready set models a timeout expiry
  (only possible when the timeout argument is finite); for a blocking call
  (`timeout=None`) the environment assumption is that the reported set is
  nonempty.
-/

/-! ## Python string primitives -/

/-- Python whitespace characters for `str.split()` / `str.rstrip()`
(the ASCII set: space, tab, newline, carriage return, vertical tab,
form feed). -/
def pyWhitespace : List Char := [' ', '\t', '\n', '\r', '\x0b', '\x0c']

/-- Test for Python whitespace. -/
def pyIsSpace (c : Char) : Bool := c ∈ pyWhitespace

/-- Python `s.rstrip(cutset)`: remove trailing characters belonging to
`cutset`. -/
def pyRstrip (l : List Char) (cutset : List Char) : List Char :=
  (l.reverse.dropWhile (fun c => c ∈ cutset)).reverse

/-- Python `s.rstrip()` (no argument): strip trailing whitespace. -/
def pyRstripWS (s : String) : String :=
  String.mk (pyRstrip s.data pyWhitespace)

/-- Python `s.startswith(pre)`. -/
def pyStartswith (s pre : String) : Bool :=
  List.isPrefixOf pre.data s.data

/-- Worker for `pySplit`: split a character list on runs of whitespace,
accumulating the current (reversed) token. -/
def pySplitAux : List Char → List Char → List String
  | [], [] => []
  | [], acc => [String.mk acc.reverse]
  | c :: rest, acc =>
    if pyIsSpace c then
      match acc with
      | [] => pySplitAux rest []
      | _ => String.mk acc.reverse :: pySplitAux rest []
    else pySplitAux rest (c :: acc)

/-- Python `s.split()` (no argument): split on runs of whitespace and drop
empty tokens. -/
def pySplit (s : String) : List String := pySplitAux s.data []

/-- ASCII decimal digit test. -/
def isDigitChar (c : Char) : Bool := '0' ≤ c && c ≤ '9'

/-- After the first digit of a Python integer literal: a sequence of digits
in which single underscores may appear between digits. -/
def pyDigitsTail : List Char → Bool
  | [] => true
  | '_' :: c :: rest => isDigitChar c && pyDigitsTail rest
  | c :: rest => isDigitChar c && pyDigitsTail rest

/-- Numeric value of a digit string, ignoring underscores. -/
def pyDigitsVal (l : List Char) : Nat :=
  l.foldl (fun a c => if c = '_' then a else a * 10 + (c.toNat - 48)) 0

/-- Python `int(s)` for decimal strings: strip surrounding whitespace, an
optional sign, then a nonempty digit string (underscores allowed between
digits).  Returns `none` where Python raises `ValueError`.
(Non-ASCII digits, accepted by Python, do not occur in this protocol.) -/
def pyInt (s : String) : Option Int :=
  let t := ((s.data.dropWhile pyIsSpace).reverse.dropWhile pyIsSpace).reverse
  let signAndDigits : Bool × List Char :=
    match t with
    | '-' :: rest => (true, rest)
    | '+' :: rest => (false, rest)
    | _ => (false, t)
  match signAndDigits.2 with
  | [] => none
  | c :: rest =>
    if isDigitChar c && pyDigitsTail rest then
      let v : Int := Int.ofNat (pyDigitsVal (c :: rest))
      some (if signAndDigits.1 then -v else v)
    else none

/-! ## The sentinel protocol (module constants and framing) -/

/-- The module constant `_exit_line`: the sentinel tag echoed after every
command. -/
def exit_line : String := "shell_has_returned_with_code"

/-- The framing performed by `execute` (source lines 199-200):
`cmd = cmd.rstrip(' ;')` followed by
`cmd = cmd + ' ; echo "shell_has_returned_with_code $?"\n'`. -/
def frame (cmd : String) : String :=
  String.mk (pyRstrip cmd.data [' ', ';']) ++
    " ; echo \"" ++ exit_line ++ " $?\"\n"

/-- The framed text as claim C5 words it (for comparison with `frame`):
the command with trailing whitespace (all of it) and semicolons trimmed,
followed by the literal text starting directly with a semicolon, and a
newline. -/
def frame_claim (cmd : String) : String :=
  String.mk (pyRstrip cmd.data (pyWhitespace ++ [';'])) ++
    "; echo \"" ++ exit_line ++ " $?\"\n"

/-- The errors the Python code can raise, by claim-relevant kind:
`commandFailed` is `raise Exception("Shell process returned errors")`
(the spec's `CommandFailed`), `protocolError` is the `ValueError` /
`IndexError` escaping `int(line.split()[1])` (the spec's `ProtocolError`),
`attributeError` is the `AttributeError` from dereferencing the absent
process handle, `assertionError` is a failing `assert`. -/
inductive ShellError where
  | assertionError (msg : String)
  | commandFailed (msg : String)
  | protocolError
  | attributeError
deriving DecidableEq, Repr

/-- Parsing of the exit status from a sentinel line (source line 212):
`return_code = int(line.split()[1])`.  Index `1` missing is Python's
`IndexError`; a non-integer token is `ValueError`; both escape the call. -/
def parseExitStatus (line : String) : Except ShellError Int :=
  match (pySplit line).get? 1 with
  | none => .error .protocolError
  | some t =>
    match pyInt t with
    | some n => .ok n
    | none => .error .protocolError

/-! ## Session state and lifecycle -/

/-- The mutable attributes of a `ShellProcess` object.  The process handle
is reduced to its pid (`none` = no process attached, Python `None`). -/
structure ShellProcessState where
  process : Option Nat
  in_context : Bool
  silent : Option Bool
  print_error : Bool
  print_commands : Bool
  print_empty_lines : Bool
  print_start_stop : Bool
  has_timeout : Bool
  allow_user_input : Bool
deriving DecidableEq, Repr

/-- The state built by `ShellProcess.__init__`. -/
def ShellProcess_init : ShellProcessState :=
  { process := none
    in_context := false
    silent := none
    print_error := true
    print_commands := true
    print_empty_lines := true
    print_start_stop := false
    has_timeout := false
    allow_user_input := false }

/-- `ShellProcess.start`: asserts no process is attached, then attaches one
(`pid` is the identifier the operating system hands back). -/
def start (pid : Nat) (st : ShellProcessState) : Except ShellError ShellProcessState :=
  match st.process with
  | some _ => .error (.assertionError "Cannot start process which is not stopped")
  | none => .ok { st with process := some pid }

/-- `ShellProcess.stop`: asserts a process is attached, kills it and sets
the handle to `None`.  No other attribute is touched. -/
def stop (st : ShellProcessState) : Except ShellError ShellProcessState :=
  match st.process with
  | none => .error (.assertionError "Cannot stop process which is not running")
  | some _ => .ok { st with process := none }

/-- How the body of a scoped `with p(...)` block ends: normally, with an
ordinary `Exception` (caught by the `except Exception` clause and
re-raised), or with a `BaseException` such as `KeyboardInterrupt` (which
skips that clause). -/
inductive BodyOutcome where
  | normal
  | raisedException
  | raisedBaseException
deriving DecidableEq, Repr

/-- `ShellProcess.__call__` (the context manager, source lines 117-149).
`body` is the state transformation performed by the block together with
how it ends.  Mirrors the source: `_stop = False; raised = True`; on
normal completion `_stop = True; raised = False`; the `except Exception`
clause sets `_stop = True` only when `stop_on_exception` and leaves
`raised` untouched; the `finally` clause clears `_in_context` and calls
`stop()` when `_stop or raised`. -/
def call_context (stop_on_exception : Bool) (startPid : Nat)
    (body : ShellProcessState → ShellProcessState × BodyOutcome)
    (st : ShellProcessState) : Except ShellError (BodyOutcome × ShellProcessState) :=
  if st.in_context then
    .error (.assertionError "Cannot create context on process twice")
  else
    let st1 : ShellProcessState := { st with in_context := true }
    let st2 : ShellProcessState :=
      if st1.process = none then { st1 with process := some startPid } else st1
    let res := body st2
    let stopFlag : Bool :=
      match res.2 with
      | .normal => true
      | .raisedException => stop_on_exception
      | .raisedBaseException => false
    let raised : Bool :=
      match res.2 with
      | .normal => false
      | _ => true
    let st4 : ShellProcessState := { res.1 with in_context := false }
    if stopFlag || raised then
      match stop st4 with
      | .ok st5 => .ok (res.2, st5)
      | .error e => .error e
    else .ok (res.2, st4)

/-! ## The stream multiplexer: `_read_line` -/

/-- The three streams `_read_line` can wait on: the driving program's own
standard input (`str_in`) and the child's output and error pipes
(`str_out`, `str_err`), named as in the source. -/
inductive Src where
  | str_in
  | str_out
  | str_err
deriving DecidableEq, Repr

/-- One `select.select(candidates, [], [], timeout)` call: the ready list
is the candidate list filtered by the set of sources that have data
(CPython reports ready descriptors in input-list order).  An empty result
models the timeout elapsing with nothing ready, which can only happen for
a finite timeout; `select` with `timeout=None` blocks until the result
would be nonempty. -/
def selectFds (candidates : List Src) (ready : List Src) : List Src :=
  candidates.filter (fun s => decide (s ∈ ready))

/-- Environment of one `_read_line` call in line mode: which sources have
data at the first `select`, which at the second `select` (consulted only
after user input was forwarded), the next full line buffered on each child
pipe (raw, before `rstrip`), and the line the user typed. -/
structure ReadLineEnv where
  ready1 : List Src
  ready2 : List Src
  outLine : String
  errLine : String
  userLine : String
deriving DecidableEq, Repr

/-- The raw line delivered by `readline()` on a child pipe. -/
def lineOf (env : ReadLineEnv) : Src → String
  | .str_in => env.userLine
  | .str_out => env.outLine
  | .str_err => env.errLine

/-- Result of one `_read_line` call in line mode: the returned value
(`none` models Python `None` on timeout), the source the returned line
was read from, the lines echoed to the console, and the user input
forwarded to the child's stdin. -/
structure ReadLineResult where
  result : Option String
  src : Option Src
  printed : List String
  forwarded : List String
deriving DecidableEq, Repr

/-- `ShellProcess._read_line` in line mode (source lines 59-89,
`allow_user_input` decides the candidate list; the char-by-char branch for
`allow_user_input=True` is modelled separately by `charRead`).  Steps:
select over the candidates; if the program's own stdin is ready, forward
the typed line to the child and select again over the child pipes only;
if nothing is ready return `None`; otherwise read a full line from the
first ready source, `rstrip` it, and print it unless suppressed
(`should_print = not silent or (s is str_err and print_error)`) or it
starts with the sentinel tag. -/
def read_line_linemode (allow_user_input print_error : Bool) (silent : Bool)
    (env : ReadLineEnv) : ReadLineResult :=
  let r : List Src :=
    if allow_user_input then
      selectFds [Src.str_in, Src.str_out, Src.str_err] env.ready1
    else
      selectFds [Src.str_out, Src.str_err] env.ready1
  let rForwarded : List Src × List String :=
    if Src.str_in ∈ r then
      (selectFds [Src.str_out, Src.str_err] env.ready2, [env.userLine])
    else (r, [])
  match rForwarded.1 with
  | [] => { result := none, src := none, printed := [], forwarded := rForwarded.2 }
  | s :: _ =>
    let should_print : Bool := !silent || (s = Src.str_err && print_error)
    let line := pyRstripWS (lineOf env s)
    let printed := if should_print && !(pyStartswith line exit_line) then [line] else []
    { result := some line, src := some s, printed := printed, forwarded := rForwarded.2 }

/-- The source the claimed priority order (output, then error, then the
program's own input) selects from a ready set. -/
def priorityFirst (ready : List Src) : Option Src :=
  if Src.str_out ∈ ready then some Src.str_out
  else if Src.str_err ∈ ready then some Src.str_err
  else if Src.str_in ∈ ready then some Src.str_in
  else none

/-- Still a possible sentinel line: the code's check
`line.startswith(_exit_line[:len(line)])` — the accumulated line agrees
with the marker on their common length (it is a prefix of the marker, or
extends the full marker). -/
def sentinelPossible (line : List Char) : Bool :=
  List.isPrefixOf (exit_line.data.take line.length) line

/-- The char-by-char reading loop of `_read_line` in interactive mode
(source lines 91-114).  `cs` is the sequence of characters the selects
deliver from the chosen source; the list ends where the loop stops reading
for an external reason (the timeout elapsed so `s in r` fails, or the
user's input became ready, which forwards the typed line and breaks —
both leave the partial line as is).  Returns the accumulated line and the
characters printed: a newline stops the loop (echoed only if already
printing); otherwise the char is appended, echoed if already printing,
and printing starts with the whole accumulated line once `should_print`
holds and the line fails `line.startswith(_exit_line[:len(line)])`. -/
def charRead (should_print : Bool) : List Char → List Char → Bool → List Char × List Char
  | [], line, _ => (line, [])
  | c :: rest, line, is_printing =>
    if c = '\n' then (line, if is_printing then ['\n'] else [])
    else
      let line' := line ++ [c]
      if is_printing then
        let lp := charRead should_print rest line' true
        (lp.1, c :: lp.2)
      else if should_print && !(sentinelPossible line') then
        let lp := charRead should_print rest line' true
        (lp.1, line' ++ lp.2)
      else
        let lp := charRead should_print rest line' false
        (lp.1, lp.2)

/-! ## `execute` -/

/-- Environment of one `execute` call: the values successive `_read_line`
calls return during the resume drain (`none` = returned `None`), the
values during the main collect loop paired with whether
`time.time() > end_time` holds when the deadline check after that
iteration runs, and the pid a lazy `start()` would attach. -/
structure ExecEnv where
  drainReads : List (Option String)
  collectReads : List (Option String × Bool)
  startPid : Nat
deriving DecidableEq, Repr

/-- Observable behaviour of one `execute` call.  `written` records the
texts written to the child's stdin during the call.  `diverges` models the
loop never terminating in the given environment (the real code would stay
blocked in `select`). -/
inductive ExecBehavior where
  | diverges (written : List String)
  | raises (e : ShellError) (st : ShellProcessState) (written : List String)
  | returns (lines : List String) (return_code : Option Int)
      (st : ShellProcessState) (written : List String)
deriving DecidableEq, Repr

/-- The written-to-stdin component of an `execute` behaviour. -/
def writtenLines : ExecBehavior → List String
  | .diverges w => w
  | .raises _ _ w => w
  | .returns _ _ _ w => w

/-- The error component of an `execute` behaviour, when it raises. -/
def raisedError : ExecBehavior → Option ShellError
  | .raises e _ _ => some e
  | _ => none

/-- The resume drain of `execute` (source lines 174-184): read lines with
no timeout until one starts with the sentinel tag; the sentinel's exit
code is dropped, every other line is appended to the same `lines` list the
call later returns.  `none` = the environment ran out of events before a
sentinel arrived (the real loop would keep blocking). -/
def drainLoop : List (Option String) → List String → Option (List String)
  | [], _ => none
  | none :: rest, lines => drainLoop rest lines
  | some line :: rest, lines =>
    if pyStartswith line exit_line then some lines
    else drainLoop rest (lines ++ [line])

/-- The collect loop of `execute` (source lines 205-220): on a sentinel
line parse the exit status, raise `commandFailed` when it is nonzero and
errors are not allowed, otherwise finish with that status; on an ordinary
line append it; after handling a non-sentinel event, finish with
`has_timeout` set when a deadline was given and has passed.  Result:
`(lines, return_code, has_timeout)`. -/
def collectLoop (allow_error : Bool) (timeout_given : Bool) :
    List (Option String × Bool) → List String →
    Option (Except ShellError (List String × Option Int × Bool))
  | [], _ => none
  | (some line, pastDeadline) :: rest, lines =>
    if pyStartswith line exit_line then
      match parseExitStatus line with
      | .error e => some (.error e)
      | .ok rc =>
        if rc != 0 && !allow_error then
          some (.error (.commandFailed "Shell process returned errors"))
        else some (.ok (lines, some rc, false))
    else
      if timeout_given && pastDeadline then some (.ok (lines ++ [line], none, true))
      else collectLoop allow_error timeout_given rest (lines ++ [line])
  | (none, pastDeadline) :: rest, lines =>
    if timeout_given && pastDeadline then some (.ok (lines, none, true))
    else collectLoop allow_error timeout_given rest lines

/-- `execute` after the resume drain (source lines 186-224): lazy
auto-start, framing, writing the framed command, the collect loop, and
the final state.  `lines` is what the drain already accumulated.
(The command announcement and per-line printing are display-only and are
modelled inside `_read_line`; `return_returncode` only selects Python's
return shape — both components are always reported here.) -/
def executeAfterDrain (st : ShellProcessState) (cmd : String)
    (allow_error timeout_given : Bool) (env : ExecEnv)
    (lines : List String) : ExecBehavior :=
  let st1 : ShellProcessState :=
    if st.process = none then { st with process := some env.startPid } else st
  let framed := frame cmd
  match collectLoop allow_error timeout_given env.collectReads lines with
  | none => .diverges [framed]
  | some (.error e) => .raises e st1 [framed]
  | some (.ok (ls, rc, ht)) => .returns ls rc { st1 with has_timeout := ht } [framed]

/-- `ShellProcess.execute` (source lines 151-224).  If `has_timeout` is
set, the resume drain runs first — before the lazy auto-start check — so
with no process attached the first `_read_line` dereferences
`self._process.stdout` on `None` and raises `AttributeError`; a completed
drain clears `has_timeout` and keeps the drained lines in the result
list.  Then the call proceeds with `executeAfterDrain`. -/
def execute (st : ShellProcessState) (cmd : String)
    (allow_error timeout_given : Bool) (env : ExecEnv) : ExecBehavior :=
  if st.has_timeout then
    match st.process with
    | none => .raises .attributeError st []
    | some _ =>
      match drainLoop env.drainReads [] with
      | none => .diverges []
      | some lines0 =>
        executeAfterDrain { st with has_timeout := false } cmd allow_error
          timeout_given env lines0
  else
    executeAfterDrain st cmd allow_error timeout_given env []

/-! ## Helper lemmas -/

/-- The head surviving a `dropWhile` fails the predicate. -/
lemma head?_of_dropWhile_eq_some {α : Type} (p : α → Bool) :
    ∀ (l : List α) (c : α), (l.dropWhile p).head? = some c → p c = false := by
  intro l
  induction l with
  | nil => intro c h; simp [List.dropWhile] at h
  | cons a t ih =>
    intro c h
    by_cases hp : p a
    · rw [List.dropWhile_cons_of_pos hp] at h
      exact ih c h
    · rw [List.dropWhile_cons_of_neg hp] at h
      simp at h
      subst h
      simpa using hp

/-- `pyRstrip` returns a prefix of its input. -/
lemma pyRstrip_prefix (l cutset : List Char) : pyRstrip l cutset <+: l := by
  have h : List.dropWhile (fun c => decide (c ∈ cutset)) l.reverse <:+ l.reverse :=
    List.dropWhile_suffix _
  have h2 := List.reverse_prefix.mpr h
  rw [List.reverse_reverse] at h2
  exact h2

/-- The decomposition `pyRstrip` induces: the kept prefix followed by the
reversed run of cut-set characters it removed. -/
lemma pyRstrip_split (l cutset : List Char) :
    l = pyRstrip l cutset ++ (l.reverse.takeWhile (fun c => decide (c ∈ cutset))).reverse := by
  calc l = l.reverse.reverse := (List.reverse_reverse l).symm
  _ = (l.reverse.takeWhile (fun c => decide (c ∈ cutset)) ++
        l.reverse.dropWhile (fun c => decide (c ∈ cutset))).reverse := by
      rw [List.takeWhile_append_dropWhile]
  _ = (l.reverse.dropWhile (fun c => decide (c ∈ cutset))).reverse ++
        (l.reverse.takeWhile (fun c => decide (c ∈ cutset))).reverse := by
      rw [List.reverse_append]
  _ = pyRstrip l cutset ++ (l.reverse.takeWhile (fun c => decide (c ∈ cutset))).reverse := rfl

/-- Every character `pyRstrip` removes belongs to the cut set. -/
lemma pyRstrip_dropped (l cutset : List Char) :
    ∀ c ∈ l.drop (pyRstrip l cutset).length, c ∈ cutset := by
  intro c hc
  have hsplit := pyRstrip_split l cutset
  nth_rewrite 2 [hsplit] at hc
  rw [List.drop_left] at hc
  have := List.mem_takeWhile_imp (List.mem_reverse.mp hc)
  simpa using this

/-- The last character `pyRstrip` keeps is outside the cut set. -/
lemma pyRstrip_getLast (l cutset : List Char) :
    ∀ c, (pyRstrip l cutset).getLast? = some c → c ∉ cutset := by
  intro c hc
  unfold pyRstrip at hc
  rw [List.getLast?_reverse] at hc
  have := head?_of_dropWhile_eq_some (fun c => decide (c ∈ cutset)) l.reverse c hc
  simpa using this

/-! ## Claim C1 -/

/-- C1 (code behaviour at the failing input): a scoped block around a
fresh session whose body raises an ordinary `Exception` leaves the
process handle detached even with `stop_on_exception = false` — because
`raised` stays `True` through the `except Exception` branch, the
`finally` clause always calls `stop()`.  The final state equals
`ShellProcess_init` (process `None`), identically for both settings of
`stop_on_exception`, contradicting the claim that with
`stop_on_exception=false` the handle stays attached. -/
theorem c1_scoped_exception_always_stops :
    call_context false 5 (fun s => (s, BodyOutcome.raisedException)) ShellProcess_init
      = .ok (BodyOutcome.raisedException, ShellProcess_init) ∧
    call_context true 5 (fun s => (s, BodyOutcome.raisedException)) ShellProcess_init
      = .ok (BodyOutcome.raisedException, ShellProcess_init) ∧
    ShellProcess_init.process = none :=
  ⟨rfl, rfl, rfl⟩

/-! ## Claim C2 -/

/-- C2 (counterexample): after a timed-out command, `execute("echo next")`
drains the superseded command's line `done` but appends it to the same
`lines` list it returns — the call returns `["done", "next"]`, not
`["next"]` as the claim states. -/
theorem c2_counterexample :
    execute { ShellProcess_init with has_timeout := true, process := some 1 } "echo next"
        false false
        { drainReads := [some "done", some "shell_has_returned_with_code 0"],
          collectReads := [(some "next", false), (some "shell_has_returned_with_code 0", false)],
          startPid := 7 }
      = .returns ["done", "next"] (some 0) { ShellProcess_init with process := some 1 }
          ["echo next ; echo \"shell_has_returned_with_code $?\"\n"] ∧
    (["done", "next"] : List String) ≠ ["next"] ∧
    "done" ∈ (["done", "next"] : List String) :=
  ⟨rfl, by decide, by decide⟩

/-! ## Claim C3 -/

/-- C3 (counterexample): the error raised on a nonzero exit status is the
constant `Exception("Shell process returned errors")` — two runs whose
collected output lines (`[]` vs `["outline"]`) and exit codes (1 vs 2)
differ raise the very same error value, so the error carries neither the
collected output nor the exit code. -/
theorem c3_counterexample :
    raisedError (execute ShellProcess_init "false" false false
        { drainReads := [],
          collectReads := [(some "shell_has_returned_with_code 1", false)],
          startPid := 3 })
      = some (.commandFailed "Shell process returned errors") ∧
    raisedError (execute ShellProcess_init "other" false false
        { drainReads := [],
          collectReads := [(some "outline", false), (some "shell_has_returned_with_code 2", false)],
          startPid := 3 })
      = some (.commandFailed "Shell process returned errors") ∧
    (1 : Int) ≠ 2 ∧ (["outline"] : List String) ≠ [] :=
  ⟨rfl, rfl, by decide, by decide⟩

/-! ## Claim C5 -/

/-- C5 (counterexample): for the command `"ls\t"` the text actually
written keeps the trailing tab (only spaces and semicolons are stripped)
and has a space before the appended semicolon, while the claim's wording
(`frame_claim`) predicts the tab removed and no space. -/
theorem c5_counterexample :
    frame "ls\t" = "ls\t ; echo \"shell_has_returned_with_code $?\"\n" ∧
    frame_claim "ls\t" = "ls; echo \"shell_has_returned_with_code $?\"\n" ∧
    frame "ls\t" ≠ frame_claim "ls\t" ∧
    writtenLines (execute ShellProcess_init "ls\t" false false
        { drainReads := [], collectReads := [], startPid := 2 })
      = [frame "ls\t"] :=
  ⟨rfl, rfl, by decide, rfl⟩

/-! ## Claim C6 -/

/-- C6 (counterexample): the line `shell_has_returned_with_code 5 junk`
begins with the sentinel tag and its trailing token `junk` cannot be
parsed as a decimal exit code, yet `int(line.split()[1])` silently
succeeds and returns 5 — the code parses the second token, not the
trailing one. -/
theorem c6_counterexample :
    pyStartswith "shell_has_returned_with_code 5 junk" exit_line = true ∧
    (pySplit "shell_has_returned_with_code 5 junk").getLast? = some "junk" ∧
    pyInt "junk" = none ∧
    parseExitStatus "shell_has_returned_with_code 5 junk" = .ok 5 :=
  ⟨rfl, rfl, rfl, rfl⟩

/-! ## Loop lemmas for `execute` -/

/-- Prepending an accumulator to the line list of a collect-loop result. -/
def accMap (acc : List String) :
    Except ShellError (List String × Option Int × Bool) →
    Except ShellError (List String × Option Int × Bool)
  | .error e => .error e
  | .ok x => .ok (acc ++ x.1, x.2)

lemma accMap_accMap (a b : List String)
    (x : Except ShellError (List String × Option Int × Bool)) :
    accMap a (accMap b x) = accMap (a ++ b) x := by
  cases x with
  | error e => rfl
  | ok y => simp [accMap, List.append_assoc]

/-- The collect loop only ever appends to its accumulator: running it on
`acc` equals running it on `[]` and prepending `acc` to the collected
lines. -/
lemma collectLoop_append (ae tg : Bool) :
    ∀ (rs : List (Option String × Bool)) (acc : List String),
      collectLoop ae tg rs acc = (collectLoop ae tg rs []).map (accMap acc) := by
  intro rs
  induction rs with
  | nil => intro acc; rfl
  | cons hd rest ih =>
    intro acc
    obtain ⟨r, pd⟩ := hd
    cases r with
    | none =>
      cases htg : tg && pd
      · simp only [collectLoop, htg, Bool.false_eq_true, if_false]
        exact ih acc
      · simp [collectLoop, htg, accMap]
    | some line =>
      cases hs : pyStartswith line exit_line
      · cases htg : tg && pd
        · simp only [collectLoop, hs, htg, Bool.false_eq_true, if_false]
          rw [ih (acc ++ [line]), ih ([] ++ [line])]
          cases hX : collectLoop ae tg rest [] with
          | none => rfl
          | some res => simp [accMap_accMap]
        · simp [collectLoop, hs, htg, accMap]
      · cases hp : parseExitStatus line with
        | error e => simp [collectLoop, hs, hp, accMap]
        | ok rc =>
          cases hb : rc != 0 && !ae
          · simp [collectLoop, hs, hp, hb, accMap]
          · simp [collectLoop, hs, hp, hb, accMap]

/-- A run of non-sentinel reads followed by a read at an expired deadline:
the loop ends on the timeout path with all read lines appended, no exit
status, and `has_timeout` to be set. -/
lemma collectLoop_no_sentinel_deadline (ae : Bool) :
    ∀ (pre : List String) (r : Option String) (acc : List String),
      (∀ l ∈ pre, pyStartswith l exit_line = false) →
      (∀ l, r = some l → pyStartswith l exit_line = false) →
      collectLoop ae true (pre.map (fun l => (some l, false)) ++ [(r, true)]) acc
        = some (.ok (acc ++ pre ++ r.toList, none, true)) := by
  intro pre
  induction pre with
  | nil =>
    intro r acc hpre hr
    cases r with
    | none => simp [collectLoop]
    | some l =>
      have hl := hr l rfl
      simp [collectLoop, hl]
  | cons a pre ih =>
    intro r acc hpre hr
    have ha := hpre a (by simp)
    simp only [List.map_cons, List.cons_append, collectLoop, ha, Bool.false_eq_true, if_false,
      Bool.and_false, List.append_eq]
    rw [ih r (acc ++ [a]) (fun l hl => hpre l (by simp [hl])) hr]
    simp [List.append_assoc]

/-- A run of non-sentinel reads followed by a sentinel line: the loop ends
on the sentinel path, raising `commandFailed` exactly when the parsed
status is nonzero and errors are not allowed. -/
lemma collectLoop_sentinel (ae tg b : Bool) :
    ∀ (pre : List String) (sline : String) (rc : Int) (acc : List String),
      (∀ l ∈ pre, pyStartswith l exit_line = false) →
      pyStartswith sline exit_line = true →
      parseExitStatus sline = .ok rc →
      collectLoop ae tg (pre.map (fun l => (some l, false)) ++ [(some sline, b)]) acc
        = if rc != 0 && !ae then
            some (.error (.commandFailed "Shell process returned errors"))
          else some (.ok (acc ++ pre, some rc, false)) := by
  intro pre
  induction pre with
  | nil =>
    intro sline rc acc hpre hs hp
    simp [collectLoop, hs, hp]
  | cons a pre ih =>
    intro sline rc acc hpre hs hp
    have ha := hpre a (by simp)
    simp only [List.map_cons, List.cons_append, collectLoop, ha, Bool.false_eq_true, if_false,
      Bool.and_false, List.append_eq]
    rw [ih sline rc (acc ++ [a]) (fun l hl => hpre l (by simp [hl])) hs hp]
    simp [List.append_assoc]

/-- C2 (amended): when `pendingTimeout` is set, the drained lines of the
superseded command are NOT discarded: they are accumulated into the same
list the call returns, so the result is the drained lines followed by the
current command's own lines.  Only the superseded sentinel's exit status
is discarded. -/
theorem c2_amended_drained_lines_kept :
    ∀ (st : ShellProcessState) (pid : Nat) (cmd : String) (ae tg : Bool) (env : ExecEnv)
      (D L : List String) (rc : Option Int) (ht : Bool),
      st.has_timeout = true → st.process = some pid →
      drainLoop env.drainReads [] = some D →
      collectLoop ae tg env.collectReads [] = some (.ok (L, rc, ht)) →
      execute st cmd ae tg env
        = .returns (D ++ L) rc { st with has_timeout := ht } [frame cmd] := by
  intro st pid cmd ae tg env D L rc ht hto hp hD hL
  unfold execute
  rw [hto]
  simp only [if_true, hp, hD]
  unfold executeAfterDrain
  rw [collectLoop_append]
  rw [hL]
  simp [hp, accMap]

/-- C2 (witness for the amended claim): concrete timed-out session whose
drain yields `["late"]` and whose own command yields `["cwd"]`; the call
returns `["late", "cwd"]`. -/
theorem c2_amended_witness :
    execute { ShellProcess_init with has_timeout := true, process := some 1 } "pwd"
        false false
        { drainReads := [some "late", some "shell_has_returned_with_code 7"],
          collectReads := [(some "cwd", false), (some "shell_has_returned_with_code 0", false)],
          startPid := 9 }
      = .returns (["late"] ++ ["cwd"]) (some 0) { ShellProcess_init with process := some 1 }
          [frame "pwd"] :=
  c2_amended_drained_lines_kept
    { ShellProcess_init with has_timeout := true, process := some 1 } 1 "pwd" false false
    { drainReads := [some "late", some "shell_has_returned_with_code 7"],
      collectReads := [(some "cwd", false), (some "shell_has_returned_with_code 0", false)],
      startPid := 9 }
    ["late"] ["cwd"] (some 0) false rfl rfl rfl rfl

/-- C3 (amended): when the sentinel arrives with a nonzero exit status and
`allow_error` is false, the call fails — but with the constant error
`Exception("Shell process returned errors")`, which carries neither the
collected output lines nor the exit code; with `allow_error` true the same
call returns normally with the collected lines and that exit code. -/
theorem c3_amended_error_gating :
    ∀ (st : ShellProcessState) (cmd : String) (tg b : Bool) (dr : List (Option String))
      (p : Nat) (pre : List String) (sline : String) (rc : Int),
      st.has_timeout = false →
      (∀ l ∈ pre, pyStartswith l exit_line = false) →
      pyStartswith sline exit_line = true →
      parseExitStatus sline = .ok rc →
      rc ≠ 0 →
      (execute st cmd false tg
          { drainReads := dr,
            collectReads := pre.map (fun l => (some l, false)) ++ [(some sline, b)],
            startPid := p }
        = .raises (.commandFailed "Shell process returned errors")
            (if st.process = none then { st with process := some p } else st)
            [frame cmd]) ∧
      (execute st cmd true tg
          { drainReads := dr,
            collectReads := pre.map (fun l => (some l, false)) ++ [(some sline, b)],
            startPid := p }
        = .returns pre (some rc)
            { (if st.process = none then { st with process := some p } else st) with
                has_timeout := false }
            [frame cmd]) := by
  intro st cmd tg b dr p pre sline rc hto hpre hs hp hrc
  have hrcb : (rc != 0) = true := by simpa using hrc
  constructor
  · unfold execute
    rw [hto]
    unfold executeAfterDrain
    rw [collectLoop_sentinel false tg b pre sline rc [] hpre hs hp]
    simp [hrcb, hto]
  · unfold execute
    rw [hto]
    unfold executeAfterDrain
    rw [collectLoop_sentinel true tg b pre sline rc [] hpre hs hp]
    simp [hto]

/-- C3 (witness for the amended claim): `execute("false")` with the
sentinel reporting exit status 1 raises the constant command-failure
error; with `allow_error` it returns normally with exit code 1 and empty
output. -/
theorem c3_amended_witness :
    (execute ShellProcess_init "false" false false
        { drainReads := [],
          collectReads := [(some "shell_has_returned_with_code 1", false)],
          startPid := 3 }
      = .raises (.commandFailed "Shell process returned errors")
          { ShellProcess_init with process := some 3 } [frame "false"]) ∧
    (execute ShellProcess_init "false" true false
        { drainReads := [],
          collectReads := [(some "shell_has_returned_with_code 1", false)],
          startPid := 3 }
      = .returns [] (some 1) { ShellProcess_init with process := some 3 }
          [frame "false"]) :=
  c3_amended_error_gating ShellProcess_init "false" false false [] 3 []
    "shell_has_returned_with_code 1" 1 rfl (fun l hl => nomatch hl) rfl rfl
    (by decide)

/-- C4: when the deadline elapses before any sentinel line is observed,
`execute` sets `has_timeout` in the final state, ends the collect loop
with no exit status (`none`), and returns the lines collected so far —
the timeout is not raised as an error (the behaviour is `returns`, not
`raises`). -/
theorem c4_timeout_sets_flag_returns_partial :
    ∀ (st : ShellProcessState) (cmd : String) (ae : Bool) (dr : List (Option String))
      (p : Nat) (pre : List String) (r : Option String),
      st.has_timeout = false →
      (∀ l ∈ pre, pyStartswith l exit_line = false) →
      (∀ l, r = some l → pyStartswith l exit_line = false) →
      execute st cmd ae true
          { drainReads := dr,
            collectReads := pre.map (fun l => (some l, false)) ++ [(r, true)],
            startPid := p }
        = .returns (pre ++ r.toList) none
            { (if st.process = none then { st with process := some p } else st) with
                has_timeout := true }
            [frame cmd] := by
  intro st cmd ae dr p pre r hto hpre hr
  unfold execute
  rw [hto]
  unfold executeAfterDrain
  rw [collectLoop_no_sentinel_deadline ae pre r [] hpre hr]
  cases hsp : st.process <;> simp [hsp, hto]

/-- C4 (witness): a call with a timeout that reads one partial line and
then sees the deadline expire returns `["partial"]`, no exit status, and
leaves `has_timeout` set. -/
theorem c4_witness :
    execute ShellProcess_init "sleep 5" false true
        { drainReads := [],
          collectReads := [(some "partial", false), (none, true)],
          startPid := 2 }
      = .returns (["partial"] ++ []) none
          { ShellProcess_init with process := some 2, has_timeout := true }
          [frame "sleep 5"] :=
  c4_timeout_sets_flag_returns_partial ShellProcess_init "sleep 5" false [] 2
    ["partial"] none rfl (by decide) (fun l hl => nomatch hl)

/-- Whatever the collect loop does, `executeAfterDrain` has already
written exactly the framed command to the child's stdin. -/
lemma writtenLines_executeAfterDrain (st : ShellProcessState) (cmd : String)
    (ae tg : Bool) (env : ExecEnv) (lines : List String) :
    writtenLines (executeAfterDrain st cmd ae tg env lines) = [frame cmd] := by
  unfold executeAfterDrain
  cases h : collectLoop ae tg env.collectReads lines with
  | none => rfl
  | some res =>
    cases res with
    | error e => rfl
    | ok x =>
      obtain ⟨ls, rc, ht⟩ := x
      rfl

/-- The framed text, with the appended literal written out in one piece. -/
lemma frame_eq (cmd : String) :
    frame cmd = String.mk (pyRstrip cmd.data [' ', ';']) ++
      " ; echo \"shell_has_returned_with_code $?\"\n" := by
  apply String.ext
  simp [frame, exit_line]

/-- C5 (amended): the text written to the child's input stream is the
command with trailing spaces and semicolons (only those — other
whitespace such as tabs is kept) trimmed, followed by the literal
`' ; echo "shell_has_returned_with_code $?"'` — with a space before the
semicolon — and a newline.  The trim is characterised: the kept part is a
prefix of the command, every dropped character is a space or semicolon,
and the kept part does not end in one. -/
theorem c5_amended_framing :
    ∀ (st : ShellProcessState) (cmd : String) (ae tg : Bool) (env : ExecEnv),
      st.has_timeout = false →
      writtenLines (execute st cmd ae tg env)
          = [String.mk (pyRstrip cmd.data [' ', ';'])
              ++ " ; echo \"shell_has_returned_with_code $?\"\n"] ∧
      pyRstrip cmd.data [' ', ';'] <+: cmd.data ∧
      (∀ c ∈ cmd.data.drop (pyRstrip cmd.data [' ', ';']).length, c = ' ' ∨ c = ';') ∧
      (∀ c, (pyRstrip cmd.data [' ', ';']).getLast? = some c → ¬(c = ' ' ∨ c = ';')) := by
  intro st cmd ae tg env hto
  refine ⟨?_, pyRstrip_prefix _ _, ?_, ?_⟩
  · have h1 := writtenLines_executeAfterDrain st cmd ae tg env []
    simp [execute, hto, h1, frame_eq]
  · intro c hc
    have := pyRstrip_dropped cmd.data [' ', ';'] c hc
    simpa using this
  · intro c hlast
    have := pyRstrip_getLast cmd.data [' ', ';'] c hlast
    simpa using this

/-- C5 (witness for the amended claim) at the command `"pwd ; "`. -/
theorem c5_amended_witness :
    writtenLines (execute ShellProcess_init "pwd ; " false false
        { drainReads := [], collectReads := [], startPid := 1 })
        = [String.mk (pyRstrip "pwd ; ".data [' ', ';'])
            ++ " ; echo \"shell_has_returned_with_code $?\"\n"] ∧
    pyRstrip "pwd ; ".data [' ', ';'] <+: "pwd ; ".data ∧
    (∀ c ∈ "pwd ; ".data.drop (pyRstrip "pwd ; ".data [' ', ';']).length, c = ' ' ∨ c = ';') ∧
    (∀ c, (pyRstrip "pwd ; ".data [' ', ';']).getLast? = some c → ¬(c = ' ' ∨ c = ';')) :=
  c5_amended_framing ShellProcess_init "pwd ; " false false
    { drainReads := [], collectReads := [], startPid := 1 } rfl

/-- C6 (amended): for a line beginning with the sentinel tag, the code
parses the SECOND whitespace-separated token; whenever that token is
missing or fails integer parsing, the parse fails (the `ValueError` /
`IndexError` propagates) rather than returning an exit status. -/
theorem c6_amended_malformed_second_token :
    ∀ (line : String),
      pyStartswith line exit_line = true →
      ((pySplit line).get? 1).bind pyInt = none →
      parseExitStatus line = .error .protocolError := by
  intro line _hs h
  cases hg : (pySplit line).get? 1 with
  | none =>
    rw [List.get?_eq_getElem?] at hg
    simp [parseExitStatus, hg]
  | some t =>
    rw [hg] at h
    simp only [Option.some_bind] at h
    rw [List.get?_eq_getElem?] at hg
    simp [parseExitStatus, hg, h]

/-- C6 (witness for the amended claim): a sentinel line with a
non-numeric second token fails to parse. -/
theorem c6_amended_witness :
    parseExitStatus "shell_has_returned_with_code abc" = .error .protocolError :=
  c6_amended_malformed_second_token "shell_has_returned_with_code abc" rfl rfl

/-! ## Claim C10 -/

/-- C10: `stop` clears only the process handle and leaves `has_timeout`
untouched, so after a timed-out `execute` followed by `stop`, the next
`execute` enters the resume drain before the lazy auto-start check, tries
to read from the absent process handle, and raises (`AttributeError` on
`None.stdout`) instead of starting a fresh process — nothing is written
and the state is unchanged. -/
theorem c10_stop_keeps_pending_timeout :
    ∀ (st : ShellProcessState) (pid : Nat) (cmd : String) (ae tg : Bool) (env : ExecEnv),
      st.process = some pid → st.has_timeout = true →
      stop st = .ok { st with process := none } ∧
      ({ st with process := none } : ShellProcessState).has_timeout = true ∧
      execute { st with process := none } cmd ae tg env
        = .raises .attributeError { st with process := none } [] := by
  intro st pid cmd ae tg env hp ht
  refine ⟨?_, ht, ?_⟩
  · simp [stop, hp]
  · simp [execute, ht]

/-- C10 (witness): a concrete session with a pending timeout is stopped,
keeps `has_timeout`, and the next `execute` raises without starting a
process. -/
theorem c10_witness :
    stop { ShellProcess_init with process := some 4, has_timeout := true }
      = .ok { ShellProcess_init with process := none, has_timeout := true } ∧
    ({ ShellProcess_init with process := none, has_timeout := true } : ShellProcessState).has_timeout
      = true ∧
    execute { ShellProcess_init with process := none, has_timeout := true } "echo hi" false false
        { drainReads := [], collectReads := [], startPid := 9 }
      = .raises .attributeError
          { ShellProcess_init with process := none, has_timeout := true } [] :=
  c10_stop_keeps_pending_timeout
    { ShellProcess_init with process := some 4, has_timeout := true } 4 "echo hi" false false
    { drainReads := [], collectReads := [], startPid := 9 } rfl rfl

/-! ## Claims C7 and C8 -/

/-- C7: `_read_line` and timeouts.  The readiness sets model what
`select` reports before the deadline; an empty set is only possible for a
finite timeout, and a blocking `select` (`timeout=None`) always reports a
nonempty set.  (a) If no candidate source is ready, the call returns
`None`.  (b) `None` is returned only when a `select` came back empty —
the timeout signal.  (c) Under the blocking contract (every performed
`select` reports something ready, i.e. the absent-timeout case), the call
never returns `None`: it blocks until it can deliver a line. -/
theorem c7_readline_timeout_signalling :
    ∀ (aui pe sil : Bool) (env : ReadLineEnv),
      (selectFds (if aui then [Src.str_in, Src.str_out, Src.str_err]
            else [Src.str_out, Src.str_err]) env.ready1 = [] →
          (read_line_linemode aui pe sil env).result = none) ∧
      ((read_line_linemode aui pe sil env).result = none →
          selectFds [Src.str_out, Src.str_err] env.ready1 = []
            ∨ selectFds [Src.str_out, Src.str_err] env.ready2 = []) ∧
      ((selectFds (if aui then [Src.str_in, Src.str_out, Src.str_err]
            else [Src.str_out, Src.str_err]) env.ready1 ≠ [] ∧
        (Src.str_in ∈ selectFds (if aui then [Src.str_in, Src.str_out, Src.str_err]
            else [Src.str_out, Src.str_err]) env.ready1 →
          selectFds [Src.str_out, Src.str_err] env.ready2 ≠ [])) →
          (read_line_linemode aui pe sil env).result ≠ none) := by
  intro aui pe sil env
  by_cases hin : Src.str_in ∈ env.ready1 <;>
    by_cases ho : Src.str_out ∈ env.ready1 <;>
      by_cases he : Src.str_err ∈ env.ready1 <;>
        by_cases ho2 : Src.str_out ∈ env.ready2 <;>
          by_cases he2 : Src.str_err ∈ env.ready2 <;>
            cases aui <;>
              simp [read_line_linemode, selectFds, hin, ho, he, ho2, he2]

/-- C8: when at least two candidate sources are simultaneously ready (and
buffered child output stays ready across the re-`select` that follows a
user-input forward), the source whose line the call returns is the first
in the priority order output-stream, error-stream, then the driving
program's input stream, among the ready candidates. -/
theorem c8_priority_selection :
    ∀ (aui pe sil : Bool) (env : ReadLineEnv),
      2 ≤ (selectFds (if aui then [Src.str_in, Src.str_out, Src.str_err]
              else [Src.str_out, Src.str_err]) env.ready1).length →
      selectFds [Src.str_out, Src.str_err] env.ready2
        = selectFds [Src.str_out, Src.str_err] env.ready1 →
      (read_line_linemode aui pe sil env).src
        = priorityFirst (selectFds (if aui then [Src.str_in, Src.str_out, Src.str_err]
              else [Src.str_out, Src.str_err]) env.ready1) := by
  intro aui pe sil env hlen hpersist
  by_cases hin : Src.str_in ∈ env.ready1 <;>
    by_cases ho : Src.str_out ∈ env.ready1 <;>
      by_cases he : Src.str_err ∈ env.ready1 <;>
        cases aui <;>
          simp_all [read_line_linemode, selectFds, priorityFirst]

/-! ## Claim C9: the sentinel-prefix automaton of interactive reads -/

/-- The code's check `line.startswith(marker[:len(line)])` holds exactly
when the line is still compatible with the marker: it is a prefix of the
marker, or it extends the full marker. -/
lemma take_isPrefixOf_iff (m l : List Char) :
    List.isPrefixOf (m.take l.length) l = true ↔ (l <+: m ∨ m <+: l) := by
  rw [List.isPrefixOf_iff_prefix]
  constructor
  · intro h
    by_cases hlen : l.length ≤ m.length
    · left
      have hl : (m.take l.length).length = l.length := by
        simp [List.length_take]
        omega
      have heq := h.eq_of_length hl
      rw [List.prefix_iff_eq_take]
      exact heq.symm
    · right
      have hm : m.take l.length = m := List.take_of_length_le (by omega)
      rwa [hm] at h
  · intro h
    cases h with
    | inl h =>
      have heq : l = m.take l.length := List.prefix_iff_eq_take.mp h
      rw [← heq]
    | inr h =>
      have hlen : m.length ≤ l.length := h.length_le
      rw [List.take_of_length_le hlen]
      exact h

/-- Once a line has provably left the sentinel-prefix match, no extension
re-enters it. -/
lemma sentinelPossible_extend_false (l t : List Char) :
    sentinelPossible l = false → sentinelPossible (l ++ t) = false := by
  intro h
  cases hx : sentinelPossible (l ++ t) with
  | false => rfl
  | true =>
    exfalso
    have hdis := (take_isPrefixOf_iff exit_line.data (l ++ t)).mp hx
    have hneg : ¬ (l <+: exit_line.data ∨ exit_line.data <+: l) := by
      intro hc
      have := (take_isPrefixOf_iff exit_line.data l).mpr hc
      rw [sentinelPossible] at h
      rw [this] at h
      exact Bool.true_eq_false.mp h
    have hl : l <+: l ++ t := List.prefix_append l t
    cases hdis with
    | inl hp => exact hneg (Or.inl (hl.trans hp))
    | inr hp =>
      by_cases hlen : exit_line.data.length ≤ l.length
      · exact hneg (Or.inr (List.prefix_of_prefix_length_le hp hl hlen))
      · exact hneg (Or.inl (List.prefix_of_prefix_length_le hl hp (by omega)))

/-- Once printing has started, every further character (and the closing
newline) is echoed as it arrives: the loop prints exactly the rest of the
line. -/
lemma charRead_printing (sp : Bool) :
    ∀ (cs line : List Char),
      charRead sp cs line true
        = (line ++ cs.takeWhile (fun c => c != '\n'),
           cs.takeWhile (fun c => c != '\n') ++ if '\n' ∈ cs then ['\n'] else []) := by
  intro cs
  induction cs with
  | nil => intro line; simp [charRead]
  | cons c rest ih =>
    intro line
    by_cases hc : c = '\n'
    · subst hc
      simp [charRead, List.takeWhile_cons]
    · have hc' : ¬('\n' = c) := fun h => hc h.symm
      simp [charRead, hc, hc', List.takeWhile_cons, ih (line ++ [c]), List.append_assoc]

/-- While the accumulated line is still a possible sentinel prefix,
nothing is printed; as soon as it provably is not, the whole accumulated
line is printed and echoing continues.  Net effect starting from a
still-possible accumulator: the printed text is empty if the final line
is still sentinel-compatible, and the full line (plus newline echo)
otherwise. -/
lemma charRead_waiting :
    ∀ (cs line : List Char),
      sentinelPossible line = true →
      charRead true cs line false
        = (line ++ cs.takeWhile (fun c => c != '\n'),
           if sentinelPossible (line ++ cs.takeWhile (fun c => c != '\n')) then []
           else (line ++ cs.takeWhile (fun c => c != '\n'))
             ++ if '\n' ∈ cs then ['\n'] else []) := by
  intro cs
  induction cs with
  | nil =>
    intro line hline
    simp [charRead, hline]
  | cons c rest ih =>
    intro line hline
    by_cases hc : c = '\n'
    · subst hc
      simp [charRead, List.takeWhile_cons, hline]
    · have hc' : ¬('\n' = c) := fun h => hc h.symm
      cases hsp : sentinelPossible (line ++ [c]) with
      | true =>
        have hrec := ih (line ++ [c]) hsp
        simp [charRead, hc, hc', hsp, List.takeWhile_cons, hrec, List.append_assoc]
      | false =>
        have hpr := charRead_printing true rest (line ++ [c])
        have hfin : sentinelPossible ((line ++ [c]) ++ rest.takeWhile (fun c => c != '\n'))
            = false := sentinelPossible_extend_false (line ++ [c]) _ hsp
        have hfin' : sentinelPossible (line ++ (c :: rest.takeWhile (fun c => c != '\n')))
            = false := by
          simpa [List.append_assoc] using hfin
        simp [charRead, hc, hc', hsp, List.takeWhile_cons, hpr, hfin', List.append_assoc]

/-- C9: in interactive mode, running the char-by-char loop on delivered
characters `cs` with echoing enabled (a) returns the line up to the first
newline and prints nothing while the line is still a possible sentinel
prefix, printing the full accumulated line (plus the newline echo) exactly
when it has provably left the match; (b) the code's withholding condition
is precisely "the accumulated line is a prefix of the marker or extends
it"; (c) consequently no genuine sentinel line (one starting with the
marker) is ever printed, in whole or in part. -/
theorem c9_interactive_sentinel_withholding :
    ∀ cs : List Char,
      (charRead true cs [] false
        = (cs.takeWhile (fun c => c != '\n'),
           if sentinelPossible (cs.takeWhile (fun c => c != '\n')) then []
           else cs.takeWhile (fun c => c != '\n') ++ if '\n' ∈ cs then ['\n'] else [])) ∧
      (sentinelPossible (cs.takeWhile (fun c => c != '\n')) = true ↔
        (cs.takeWhile (fun c => c != '\n') <+: exit_line.data ∨
         exit_line.data <+: cs.takeWhile (fun c => c != '\n'))) ∧
      (exit_line.data <+: cs.takeWhile (fun c => c != '\n') →
        (charRead true cs [] false).2 = []) := by
  intro cs
  have h1 := charRead_waiting cs [] (by decide)
  refine ⟨by simpa using h1, take_isPrefixOf_iff exit_line.data _, ?_⟩
  intro hm
  have hposs : sentinelPossible (cs.takeWhile (fun c => c != '\n')) = true :=
    (take_isPrefixOf_iff exit_line.data _).mpr (Or.inr hm)
  rw [h1]
  simp [hposs]

/-- C9 (witness): for a delivered genuine sentinel line, nothing at all is
printed by the interactive reader. -/
theorem c9_witness :
    (charRead true "shell_has_returned_with_code 0\n".data [] false).2 = [] :=
  (c9_interactive_sentinel_withholding "shell_has_returned_with_code 0\n".data).2.2 (by decide)

/-- C7 (witness): with a finite timeout and no candidate source ready,
`_read_line` returns `None`. -/
theorem c7_witness :
    (read_line_linemode false true false
        { ready1 := [], ready2 := [], outLine := "o", errLine := "e", userLine := "u" }).result
      = none :=
  (c7_readline_timeout_signalling false true false
      { ready1 := [], ready2 := [], outLine := "o", errLine := "e", userLine := "u" }).1 rfl

/-- C8 (witness): with all three sources ready, the returned line comes
from the output stream, the first source in the priority order. -/
theorem c8_witness :
    (read_line_linemode true true false
        { ready1 := [Src.str_in, Src.str_out, Src.str_err],
          ready2 := [Src.str_in, Src.str_out, Src.str_err],
          outLine := "o", errLine := "e", userLine := "u" }).src
      = priorityFirst (selectFds [Src.str_in, Src.str_out, Src.str_err]
          [Src.str_in, Src.str_out, Src.str_err]) :=
  c8_priority_selection true true false
    { ready1 := [Src.str_in, Src.str_out, Src.str_err],
      ready2 := [Src.str_in, Src.str_out, Src.str_err],
      outLine := "o", errLine := "e", userLine := "u" }
    (by decide) (by decide)
